import Mathlib

/-!
Verification development for the SBS home-battery charging controller
(scheduler / executor / durable schedule store).

The Python source is shallowly embedded: the `schedules` and `decisions`
tables become lists of records, and each store operation of `src/src/db.py`
becomes a pure function on that state.  Persisted ISO-8601 UTC timestamps
compare lexicographically exactly when they compare chronologically, so they
are modelled as natural numbers; prices, state-of-charge percentages and
energies are rationals.
-/

namespace SBS

open scoped List

/-- A row of the `schedules` table (`src/src/db.py`, `_ensure_columns`). -/
structure ScheduleRow where
  id : Nat
  start_time : Nat
  end_time : Nat
  mode : String := "autonomous"
  source : String := "scheduler"
  manual_override : Bool := false
  target_soc : Int := 0
  price_p_per_kwh : Option ℚ := none
  executed : Bool := false
  expired : Bool := false
  decision : Option String := none
  decision_at : Option Nat := none
  retry_count : Nat := 0
  last_retry_utc : Option Nat := none
deriving DecidableEq

/-- A row of the append-only `decisions` audit table (`src/src/db.py`). -/
structure DecisionRow where
  schedule_id : Nat
  start_time : Option Nat := none
  end_time : Option Nat := none
  action : String
  reason : String
  soc : Option ℚ := none
  solar_power : Option ℚ := none
  island_status : Option String := none
  price_p_per_kwh : Option ℚ := none
  timestamp : Option Nat := none
deriving DecidableEq

/-- The durable schedule store: the `schedules` table plus the append-only
`decisions` table. -/
structure DBState where
  schedules : List ScheduleRow
  decisions : List DecisionRow
deriving DecidableEq

/-- Predicate of `fetch_pending_schedules`: `executed = 0 AND (expired IS
NULL OR expired = 0)`. -/
def isPending (r : ScheduleRow) : Bool :=
  !r.executed && !r.expired

/-- `db.fetch_pending_schedules`: all pending rows, ordered by `start_time`
ascending. -/
def fetch_pending_schedules (st : DBState) : List ScheduleRow :=
  (st.schedules.filter isPending).mergeSort fun a b => decide (a.start_time ≤ b.start_time)

/-- The decision labels for which `db.mark_as_executed` sets `executed = 1`. -/
def executedLabels : List String :=
  ["executed", "completed", "cancelled"]

/-- `db.mark_as_executed(schedule_id, decision)`: on the row with the given
id, set `executed = 1` iff the label is executed/completed/cancelled,
`expired = 1` iff the label is "expired", and stamp `decision` and
`decision_at` with the current UTC instant. -/
def mark_as_executed (st : DBState) (schedule_id : Nat) (decision : String) (now : Nat) :
    DBState :=
  { st with
    schedules := st.schedules.map fun r =>
      if r.id = schedule_id then
        { r with
          executed := decide (decision ∈ executedLabels)
          expired := decision == "expired"
          decision := some decision
          decision_at := some now }
      else r }

/-- The audit row `db.remove_schedule` appends. -/
def deletedDecision (schedule_id : Nat) : DecisionRow :=
  { schedule_id := schedule_id, action := "deleted", reason := "Deleted by User" }

/-- `db.remove_schedule(schedule_id)`: DELETE the row with that id (a no-op
on the table when no such row exists), then append one "deleted" decision —
the decision insert is unconditional. -/
def remove_schedule (st : DBState) (schedule_id : Nat) : DBState :=
  { st with
    schedules := st.schedules.filter fun r => r.id != schedule_id
    decisions := st.decisions ++ [deletedDecision schedule_id] }

/-- Selection predicate of `db.mark_all_expired`: pending rows whose
`end_time` is strictly before `now`. -/
def expiredPred (now : Nat) (r : ScheduleRow) : Bool :=
  decide (r.end_time < now) && !r.executed && !r.expired

/-- The decision row `db.mark_all_expired` inserts for a newly expired
schedule. -/
def expiredDecision (now : Nat) (r : ScheduleRow) : DecisionRow :=
  { schedule_id := r.id, start_time := some r.start_time, end_time := some r.end_time,
    action := "expired", reason := "schedule_missed",
    price_p_per_kwh := r.price_p_per_kwh, timestamp := some now }

/-- The guard query of `db.mark_all_expired`: number of decisions for the
schedule whose action is, case-insensitively, "expired". -/
def countExpiredDecisions (ds : List DecisionRow) (schedule_id : Nat) : Nat :=
  (ds.filter fun d => d.schedule_id == schedule_id && d.action.toLower == "expired").length

/-- `db.mark_all_expired(now)`: select the pending rows past their end;
if none, return 0.  Otherwise set `expired = 1`, `decision = 'expired'`,
`decision_at = now`, `executed = 0` on each of them, insert one `expired`
decision per selected row unless one already exists for that schedule
(the inserts of the same sweep are visible to the guard query), and return
the number of selected rows. -/
def mark_all_expired (st : DBState) (now : Nat) : DBState × Nat :=
  let expired_rows := st.schedules.filter (expiredPred now)
  if expired_rows.isEmpty then (st, 0)
  else
    let schedules := st.schedules.map fun r =>
      if expiredPred now r then
        { r with
          expired := true
          decision := some "expired"
          decision_at := some now
          executed := false }
      else r
    let decisions := expired_rows.foldl (fun acc r =>
      if countExpiredDecisions acc r.id = 0 then acc ++ [expiredDecision now r] else acc)
      st.decisions
    ({ st with schedules := schedules, decisions := decisions }, expired_rows.length)

/-- The row `db.add_manual_override` inserts. -/
def manualRow (nextId start_time end_time : Nat) (target_soc : Int) : ScheduleRow :=
  { id := nextId, start_time := start_time, end_time := end_time,
    mode := "manual", source := "manual", manual_override := true,
    target_soc := target_soc }

/-- `db.add_manual_override(start, end, target_soc)`: insert a pending row
with `manual_override = 1`, `mode = 'manual'`, `source = 'manual'`; the
insert is skipped when a row with the same `(start_time, end_time)` already
exists (unique-index violation).  `nextId` supplies the autoincrement id. -/
def add_manual_override (st : DBState) (nextId : Nat) (start_time end_time : Nat)
    (target_soc : Int) : DBState :=
  if st.schedules.any fun r => r.start_time == start_time && r.end_time == end_time then st
  else
    { st with schedules := st.schedules ++ [manualRow nextId start_time end_time target_soc] }

/-- The `/putSchedule` handler (`src/src/Keep_Alive.py`, `add_schedule`)
composed with `add_manual_charge_schedule` (`src/src/ScheduleChargeSlots.py`)
and `db.add_manual_override`: a missing `target_soc` in the request body
defaults to the literal 98 (`data.get("target_soc", 98)`); a start not
strictly before the end raises `ValueError`, so nothing is inserted. -/
def putSchedule (st : DBState) (nextId : Nat) (start_time end_time : Nat)
    (body_target_soc : Option Int) : DBState :=
  let target_soc := body_target_soc.getD 98
  if start_time < end_time then
    add_manual_override st nextId start_time end_time target_soc
  else st

/-- `config/config.py`: `BATTERY_RESERVE_START =
int(os.getenv("BATTERY_RESERVE_START", 80))` — the configured
reserve-at-start percentage, 80 in the default configuration. -/
def BATTERY_RESERVE_START_default : Int := 80

/-! Store-level theorems. -/

/-- Sample pending schedule row used in concrete store states. -/
def c2Row : ScheduleRow :=
  { id := 1, start_time := 100, end_time := 130 }

/-- C2: `mark_as_executed` with the label "aborted" sets `executed = 0` and
`expired = 0`, so the row is still pending and `fetch_pending_schedules`
returns it again — divergence from the documented lifecycle, where
`aborted` leaves the pending state. -/
theorem aborted_row_stays_pending :
    ((mark_as_executed ⟨[c2Row], []⟩ 1 "aborted" 10).schedules.all isPending = true)
    ∧ ∃ r ∈ fetch_pending_schedules (mark_as_executed ⟨[c2Row], []⟩ 1 "aborted" 10),
        r.id = 1 ∧ r.decision = some "aborted" := by
  refine ⟨by decide, ?_⟩
  have h : ∃ r ∈ (mark_as_executed ⟨[c2Row], []⟩ 1 "aborted" 10).schedules.filter isPending,
      r.id = 1 ∧ r.decision = some "aborted" := by decide
  obtain ⟨r, hr, hprop⟩ := h
  exact ⟨r, List.mem_mergeSort.mpr hr, hprop⟩

/-- Concrete one-row store used for the `mark_as_executed` counterexample. -/
def c3st : DBState :=
  ⟨[{ id := 1, start_time := 100, end_time := 130 }], []⟩

/-- C3 counterexample: re-applying `mark_as_executed` with the same label at
a later instant changes the row (it overwrites `decision_at`), and the call
inserts no decision row at all, refuting the claimed one-decision-write,
row-unchanged idempotence. -/
theorem mark_as_executed_reapply_counterexample :
    mark_as_executed (mark_as_executed c3st 1 "completed" 5) 1 "completed" 7
      ≠ mark_as_executed c3st 1 "completed" 5
    ∧ (mark_as_executed (mark_as_executed c3st 1 "completed" 5) 1 "completed" 7).decisions
      = [] := by
  decide

/-- C3 amended: `mark_as_executed` never writes decision rows; re-applying
the same label leaves `executed`, `expired` and `decision` unchanged and only
overwrites `decision_at` with the new call instant, so it is a strict no-op
exactly when the repeated call carries the same instant. -/
theorem mark_as_executed_reapply (st : DBState) (schedule_id : Nat) (d : String) (t t' : Nat) :
    (mark_as_executed (mark_as_executed st schedule_id d t) schedule_id d t').decisions
        = st.decisions
    ∧ (mark_as_executed (mark_as_executed st schedule_id d t) schedule_id d t').schedules
        = ((mark_as_executed st schedule_id d t).schedules.map fun r =>
            if r.id = schedule_id then { r with decision_at := some t' } else r)
    ∧ (t' = t →
        mark_as_executed (mark_as_executed st schedule_id d t) schedule_id d t'
          = mark_as_executed st schedule_id d t) := by
  refine ⟨rfl, ?_, ?_⟩
  · simp only [mark_as_executed, List.map_map]
    apply List.map_congr_left
    intro r _
    by_cases h : r.id = schedule_id <;> simp [Function.comp, h]
  · intro h
    subst h
    simp only [mark_as_executed, List.map_map]
    congr 1
    apply List.map_congr_left
    intro r _
    by_cases h : r.id = schedule_id <;> simp [Function.comp, h]

/-- Witness for `mark_as_executed_reapply` at a concrete store and equal
instants. -/
theorem mark_as_executed_reapply_witness :
    mark_as_executed (mark_as_executed c3st 1 "completed" 5) 1 "completed" 5
      = mark_as_executed c3st 1 "completed" 5 :=
  (mark_as_executed_reapply c3st 1 "completed" 5 5).2.2 rfl

/-- C10: `remove_schedule` appends exactly one "deleted" decision whatever
the store holds; the table delete is a filter on the id, a no-op when no row
with that id exists. -/
theorem remove_schedule_always_audits (st : DBState) (schedule_id : Nat) :
    (remove_schedule st schedule_id).decisions
        = st.decisions ++ [deletedDecision schedule_id]
    ∧ (remove_schedule st schedule_id).schedules
        = (st.schedules.filter fun r => r.id != schedule_id)
    ∧ ((∀ r ∈ st.schedules, r.id ≠ schedule_id) →
        (remove_schedule st schedule_id).schedules = st.schedules) := by
  refine ⟨rfl, rfl, fun h => ?_⟩
  simp only [remove_schedule]
  exact List.filter_eq_self.mpr fun r hr => by simpa using h r hr

/-- Witness for `remove_schedule_always_audits` on an empty store: the id
does not exist, yet the "deleted" audit row is written. -/
theorem remove_schedule_always_audits_witness :
    (remove_schedule ⟨[], []⟩ 5).decisions = [deletedDecision 5]
    ∧ (remove_schedule ⟨[], []⟩ 5).schedules = [] :=
  ⟨by simpa using (remove_schedule_always_audits ⟨[], []⟩ 5).1,
   (remove_schedule_always_audits ⟨[], []⟩ 5).2.2 (by simp)⟩

/-- C9 counterexample: a `/putSchedule` request without `target_soc` stores
the literal 98, which is not the configured `BATTERY_RESERVE_START` (80 in
the default configuration). -/
theorem putSchedule_default_not_reserve_start :
    ((putSchedule ⟨[], []⟩ 1 100 130 none).schedules.map fun r => r.target_soc) = [98]
    ∧ (98 : Int) ≠ BATTERY_RESERVE_START_default := by
  decide

/-- C9 amended: a manual schedule added without `target_soc` gets the
hard-coded default 98 (from `data.get("target_soc", 98)`), independent of
`BATTERY_RESERVE_START`. -/
theorem putSchedule_default_is_98 (st : DBState) (nextId start_time end_time : Nat)
    (h1 : start_time < end_time)
    (h2 : ∀ r ∈ st.schedules, ¬(r.start_time = start_time ∧ r.end_time = end_time)) :
    (putSchedule st nextId start_time end_time none).schedules
      = st.schedules ++ [manualRow nextId start_time end_time 98] := by
  have hdup : (st.schedules.any fun r =>
      r.start_time == start_time && r.end_time == end_time) = false := by
    rw [List.any_eq_false]
    intro r hr
    simp only [Bool.and_eq_true, beq_iff_eq, not_and]
    intro h e
    exact h2 r hr ⟨h, e⟩
  simp [putSchedule, h1, add_manual_override, hdup]

/-- Witness for `putSchedule_default_is_98` on an empty store. -/
theorem putSchedule_default_is_98_witness :
    (putSchedule ⟨[], []⟩ 1 100 130 none).schedules = [manualRow 1 100 130 98] := by
  simpa using putSchedule_default_is_98 ⟨[], []⟩ 1 100 130 (by decide) (by simp)

/-- Splitting `countExpiredDecisions` over an appended row. -/
theorem countExpiredDecisions_append (ds : List DecisionRow) (d : DecisionRow) (j : Nat) :
    countExpiredDecisions (ds ++ [d]) j
      = countExpiredDecisions ds j + countExpiredDecisions [d] j := by
  simp [countExpiredDecisions, List.filter_append]

/-- The decision-insert loop of `mark_all_expired` preserves the
at-most-one-`expired`-decision bound, whatever rows it walks. -/
theorem expiredFold_bound (now : Nat) (rows : List ScheduleRow) :
    ∀ acc : List DecisionRow, (∀ j, countExpiredDecisions acc j ≤ 1) →
      ∀ j, countExpiredDecisions
        (rows.foldl (fun acc r =>
          if countExpiredDecisions acc r.id = 0 then acc ++ [expiredDecision now r] else acc)
          acc) j ≤ 1 := by
  induction rows with
  | nil => intro acc h j; simpa using h j
  | cons r rows ih =>
    intro acc h j
    simp only [List.foldl_cons]
    by_cases hg : countExpiredDecisions acc r.id = 0
    · rw [if_pos hg]
      apply ih
      intro j
      rw [countExpiredDecisions_append]
      by_cases hj : j = r.id
      · subst hj
        rw [hg, Nat.zero_add]
        exact le_trans (List.length_filter_le _ _) (by simp)
      · have h0 : countExpiredDecisions [expiredDecision now r] j = 0 := by
          simp [countExpiredDecisions, expiredDecision, Ne.symm hj]
        rw [h0]
        simpa using h j
    · rw [if_neg hg]
      exact ih acc h j

/-- A row updated by the `mark_all_expired` sweep never matches the sweep
predicate again: the update sets `expired = 1`, and unmatched rows are
unchanged. -/
theorem expiredPred_update_false (now : Nat) (r : ScheduleRow) :
    expiredPred now (if expiredPred now r then
      { r with
        expired := true
        decision := some "expired"
        decision_at := some now
        executed := false }
      else r) = false := by
  by_cases hp : expiredPred now r
  · rw [if_pos hp]
    simp [expiredPred]
  · rw [if_neg hp]
    exact Bool.eq_false_iff.mpr hp

/-- C4: a second `mark_all_expired` sweep at the same instant changes
nothing and returns 0, and a sweep preserves the invariant that each
schedule has at most one decision with action "expired". -/
theorem mark_all_expired_idempotent (st : DBState) (now : Nat) :
    mark_all_expired (mark_all_expired st now).1 now = ((mark_all_expired st now).1, 0)
    ∧ ((∀ j, countExpiredDecisions st.decisions j ≤ 1) →
        ∀ j, countExpiredDecisions (mark_all_expired st now).1.decisions j ≤ 1) := by
  by_cases hE : (st.schedules.filter (expiredPred now)).isEmpty
  · constructor
    · simp [mark_all_expired, hE]
    · intro h j
      simpa [mark_all_expired, hE] using h j
  · have hnil : ((mark_all_expired st now).1.schedules.filter (expiredPred now)) = [] := by
      rw [List.filter_eq_nil_iff]
      intro s hs
      simp only [mark_all_expired, hE, Bool.false_eq_true, if_false, List.mem_map] at hs
      obtain ⟨r, _, rfl⟩ := hs
      simp [expiredPred_update_false]
    constructor
    · set st1 := (mark_all_expired st now).1 with hst1
      show mark_all_expired st1 now = (st1, 0)
      simp [mark_all_expired, hnil]
    · intro h j
      simp only [mark_all_expired, hE, Bool.false_eq_true, if_false]
      exact expiredFold_bound now _ st.decisions h j

/-- Concrete store with one pending row past its end, for the expiry
witness. -/
def c4st : DBState :=
  ⟨[{ id := 1, start_time := 0, end_time := 3 }], []⟩

/-- Witness for `mark_all_expired_idempotent` on a concrete store. -/
theorem mark_all_expired_idempotent_witness :
    mark_all_expired (mark_all_expired c4st 5).1 5 = ((mark_all_expired c4st 5).1, 0)
    ∧ countExpiredDecisions (mark_all_expired c4st 5).1.decisions 1 ≤ 1 :=
  ⟨(mark_all_expired_idempotent c4st 5).1,
   (mark_all_expired_idempotent c4st 5).2 (fun j => by simp [c4st, countExpiredDecisions]) 1⟩

/-! Planner (`src/src/ScheduleChargeSlots.py`). -/

/-- A half-hour tariff row after `parse_rates_to_local`: local start, local
end and unit rate (`value_inc_vat`, pence/kWh).  `stop` embeds the source's
`end` column, which is a reserved word here. -/
structure TariffRow where
  start : Nat
  stop : Nat
  rate : ℚ
deriving DecidableEq

/-- Comparison used when sorting tariff rows by `start`. -/
def leTariffStart (a b : TariffRow) : Bool :=
  decide (a.start ≤ b.start)

/-- Comparison on the `rate` column, the `nsmallest(slots_count, "rate")`
key. -/
def leTariffRate (a b : TariffRow) : Bool :=
  decide (a.rate ≤ b.rate)

/-- Rate order with ties broken by the earlier `start`, as §4.6 of the spec
words the selection. -/
def leTariffLex (a b : TariffRow) : Bool :=
  decide (a.rate < b.rate ∨ (a.rate = b.rate ∧ a.start ≤ b.start))

/-- `parse_rates_to_local`: map the tariff results to local-time rows and
sort them by `start` ascending (the timezone conversion is
order-preserving, so it is the identity on our numeric instants). -/
def parse_rates_to_local (results : List TariffRow) : List TariffRow :=
  results.mergeSort leTariffStart

/-- `select_cheapest_upcoming_slots(df, slots_count)`: keep the rows with
`end > now`, return empty if none survive, else take the `slots_count`
rows with the smallest rate — pandas `nsmallest` keeps first occurrences on
ties, i.e. it is a stable selection — and sort the picked rows by `start`. -/
def select_cheapest_upcoming_slots (df : List TariffRow) (slots_count : Nat) (now : Nat) :
    List TariffRow :=
  let future := df.filter fun r => decide (now < r.stop)
  if future.isEmpty then []
  else ((future.mergeSort leTariffRate).take slots_count).mergeSort leTariffStart

/-- The slot selection as the spec words it: drop rows with `end_time ≤
now_local`, pick the `slots_needed` rows of lowest rate with ties broken by
the earlier `start_time`, and sort the selection by `start_time`
ascending. -/
def spec_cheapest_slots (rows : List TariffRow) (slots_count : Nat) (now : Nat) :
    List TariffRow :=
  (((rows.filter fun r => decide (now < r.stop)).mergeSort leTariffLex).take
    slots_count).mergeSort leTariffStart

/-- Python truncation `int(q)` for our (non-negative in practice) rationals:
round toward zero. -/
def py_int (q : ℚ) : Int :=
  if q < 0 then -(⌊-q⌋) else ⌊q⌋

/-- `compute_required_slots(hours_needed)`: the source rounds up with
`max(1, int(hours_needed / slot_hours + 0.999))`, `slot_hours` coming from
the `SLOT_HOURS` configuration. -/
def compute_required_slots (slot_hours hours_needed : ℚ) : Int :=
  max 1 (py_int (hours_needed / slot_hours + 999 / 1000))

/-- C7: the claim says `slots_needed = max(1, ceil(hours_needed /
slot_hours))` for all inputs; with the default half-hour slots and
`hours_needed = 1.00025` the ratio is 2.0005, the code computes
`int(2.9995) = 2`, yet the ceiling is 3 — the `+ 0.999` idiom fails once
the fractional part drops below 0.001. -/
theorem compute_required_slots_not_ceiling :
    compute_required_slots (1 / 2) (4001 / 4000) = 2
    ∧ max 1 ⌈(4001 / 4000 : ℚ) / (1 / 2)⌉ = 3 := by
  constructor
  · norm_num [compute_required_slots, py_int]
  · have h : ⌈((4001 : ℚ) / 4000) / (1 / 2)⌉ = 3 := by
      rw [Int.ceil_eq_iff]
      norm_num
    rw [h]
    norm_num

/-! Order lemmas for the tariff comparisons. -/

theorem leTariffStart_trans (a b c : TariffRow) :
    leTariffStart a b → leTariffStart b c → leTariffStart a c := by
  simp only [leTariffStart, decide_eq_true_eq]
  omega

theorem leTariffStart_total (a b : TariffRow) :
    leTariffStart a b || leTariffStart b a := by
  simp only [leTariffStart, Bool.or_eq_true, decide_eq_true_eq]
  omega

theorem leTariffRate_trans (a b c : TariffRow) :
    leTariffRate a b → leTariffRate b c → leTariffRate a c := by
  simp only [leTariffRate, decide_eq_true_eq]
  exact le_trans

theorem leTariffRate_total (a b : TariffRow) :
    leTariffRate a b || leTariffRate b a := by
  simp only [leTariffRate, Bool.or_eq_true, decide_eq_true_eq]
  exact le_total a.rate b.rate

theorem leTariffLex_trans (a b c : TariffRow) :
    leTariffLex a b → leTariffLex b c → leTariffLex a c := by
  simp only [leTariffLex, decide_eq_true_eq]
  rintro (h1 | ⟨h1, h1s⟩) (h2 | ⟨h2, h2s⟩)
  · exact Or.inl (lt_trans h1 h2)
  · exact Or.inl (lt_of_lt_of_le h1 (le_of_eq h2))
  · exact Or.inl (lt_of_le_of_lt (le_of_eq h1) h2)
  · exact Or.inr ⟨h1.trans h2, le_trans h1s h2s⟩

theorem leTariffLex_total (a b : TariffRow) :
    leTariffLex a b || leTariffLex b a := by
  simp only [leTariffLex, Bool.or_eq_true, decide_eq_true_eq]
  rcases lt_trichotomy a.rate b.rate with h | h | h
  · exact Or.inl (Or.inl h)
  · rcases le_total a.start b.start with hs | hs
    · exact Or.inl (Or.inr ⟨h, hs⟩)
    · exact Or.inr (Or.inr ⟨h.symm, hs⟩)
  · exact Or.inr (Or.inl h)

/-- On a list whose rows have pairwise distinct starts, the rate-then-start
lexicographic order is antisymmetric between members. -/
theorem leTariffLex_antisymm_on {l : List TariffRow}
    (h : l.Pairwise fun a b => a.start ≠ b.start) :
    ∀ a ∈ l, ∀ b ∈ l, leTariffLex a b → leTariffLex b a → a = b := by
  intro a ha b hb hab hba
  simp only [leTariffLex, decide_eq_true_eq] at hab hba
  rcases hab with h1 | ⟨h1, h1s⟩
  · rcases hba with h2 | ⟨h2, h2s⟩
    · exact absurd (lt_trans h1 h2) (lt_irrefl _)
    · exact absurd h1 (not_lt.mpr (le_of_eq h2))
  · rcases hba with h2 | ⟨h2, h2s⟩
    · exact absurd h2 (not_lt.mpr (le_of_eq h1))
    · by_contra hne
      exact (h.forall (fun x y hxy => Ne.symm hxy)) ha hb hne (le_antisymm h1s h2s)

/-- Two positions of a list form a two-element sublist. -/
theorem pair_getElem_sublist {α : Type} (l : List α) (i j : Nat) (hi : i < l.length)
    (hj : j < l.length) (hij : i < j) :
    [l[i], l[j]] <+ l := by
  have hmem : l[j] ∈ l.drop (i + 1) := by
    have hlen : j - (i + 1) < (l.drop (i + 1)).length := by
      rw [List.length_drop]
      omega
    have he : (l.drop (i + 1))[j - (i + 1)] = l[j] := by
      rw [List.getElem_drop]
      congr 1
      omega
    rw [← he]
    exact List.getElem_mem hlen
  have h1 : [l[i], l[j]] <+ l[i] :: l.drop (i + 1) :=
    List.Sublist.cons₂ _ (List.singleton_sublist.mpr hmem)
  have h2 : l[i] :: l.drop (i + 1) = l.drop i := List.getElem_cons_drop l i hi
  exact (h2 ▸ h1).trans (List.drop_sublist i l)

/-- A two-element sublist locates its members at increasing positions. -/
theorem pair_sublist_index {α : Type} {a b : α} {l : List α} (h : [a, b] <+ l) :
    ∃ (i j : Nat) (hi : i < l.length) (hj : j < l.length),
      i < j ∧ l.get ⟨i, hi⟩ = a ∧ l.get ⟨j, hj⟩ = b := by
  obtain ⟨is, heq, hpw⟩ := List.sublist_eq_map_getElem h
  cases is with
  | nil => simp at heq
  | cons i t =>
    cases t with
    | nil => simp at heq
    | cons j t2 =>
      cases t2 with
      | cons k t3 => simp at heq
      | nil =>
        simp only [List.map_cons, List.map_nil, List.cons.injEq, and_true] at heq
        have hltv : (i : Nat) < (j : Nat) := by
          have : i < j := by simpa using hpw
          exact this
        refine ⟨i.val, j.val, i.isLt, j.isLt, hltv, ?_, ?_⟩
        · simpa using heq.1.symm
        · simpa using heq.2.symm

/-- In a duplicate-free list, `[a, b]` and `[b, a]` cannot both be
sublists. -/
theorem pair_sublist_antisym {α : Type} {a b : α} {l : List α} (hnd : l.Nodup)
    (h1 : [a, b] <+ l) (h2 : [b, a] <+ l) : False := by
  obtain ⟨i1, j1, hi1, hj1, hij1, ha1, hb1⟩ := pair_sublist_index h1
  obtain ⟨i2, j2, hi2, hj2, hij2, hb2, ha2⟩ := pair_sublist_index h2
  simp only [List.get_eq_getElem] at ha1 hb1 hb2 ha2
  have e1 : i1 = j2 :=
    (@List.Nodup.getElem_inj_iff _ l hnd i1 hi1 j2 hj2).mp (by rw [ha1, ha2])
  have e2 : j1 = i2 :=
    (@List.Nodup.getElem_inj_iff _ l hnd j1 hj1 i2 hi2).mp (by rw [hb1, hb2])
  omega

/-- Stability of the selection sort key: on rows strictly increasing in
`start`, sorting by rate alone (what `nsmallest` does, keeping first
occurrences on ties) yields a list sorted in the rate-then-start
lexicographic order. -/
theorem mergeSort_rate_pairwise_lex {l : List TariffRow}
    (h : l.Pairwise fun a b => a.start < b.start) :
    (l.mergeSort leTariffRate).Pairwise (leTariffLex · ·) := by
  have hnd : l.Nodup := h.imp fun hab he => absurd (he ▸ hab) (lt_irrefl _)
  have hout_nd : (l.mergeSort leTariffRate).Nodup :=
    (List.mergeSort_perm l leTariffRate).nodup_iff.mpr hnd
  have hRate : (l.mergeSort leTariffRate).Pairwise (leTariffRate · ·) :=
    List.sorted_mergeSort leTariffRate_trans leTariffRate_total l
  rw [List.pairwise_iff_forall_sublist]
  intro a b hsub
  have hrab := List.pairwise_iff_forall_sublist.mp hRate hsub
  simp only [leTariffRate, decide_eq_true_eq] at hrab
  simp only [leTariffLex, decide_eq_true_eq]
  rcases lt_or_eq_of_le hrab with hlt | heq
  · exact Or.inl hlt
  · refine Or.inr ⟨heq, ?_⟩
    by_contra hstart
    push_neg at hstart
    have ha : a ∈ l := List.mem_mergeSort.mp (hsub.subset (by simp))
    have hb : b ∈ l := List.mem_mergeSort.mp (hsub.subset (by simp))
    obtain ⟨ia, hia, hga⟩ := List.getElem_of_mem ha
    obtain ⟨ib, hib, hgb⟩ := List.getElem_of_mem hb
    have hba : ib < ia := by
      rcases Nat.lt_trichotomy ia ib with h1 | h1 | h1
      · have h2 := List.pairwise_iff_getElem.mp h ia ib hia hib h1
        rw [hga, hgb] at h2
        omega
      · subst h1
        rw [hga] at hgb
        rw [hgb] at hstart
        exact absurd hstart (lt_irrefl _)
      · exact h1
    have hpair : [b, a] <+ l := by
      have hp := pair_getElem_sublist l ib ia hib hia hba
      rw [hga, hgb] at hp
      exact hp
    have hba2 : leTariffRate b a := by
      simp only [leTariffRate, decide_eq_true_eq]
      exact le_of_eq heq.symm
    have hsub2 : [b, a] <+ l.mergeSort leTariffRate :=
      List.pair_sublist_mergeSort leTariffRate_trans leTariffRate_total hba2 hpair
    exact pair_sublist_antisym hout_nd hsub hsub2

/-- On rows strictly increasing in `start`, the stable sort by rate agrees
with the sort by the rate-then-start lexicographic order. -/
theorem mergeSort_rate_eq_lex {l : List TariffRow}
    (h : l.Pairwise fun a b => a.start < b.start) :
    l.mergeSort leTariffRate = l.mergeSort leTariffLex := by
  have hne : l.Pairwise fun a b => a.start ≠ b.start :=
    h.imp fun hab => Nat.ne_of_lt hab
  refine List.Perm.eq_of_sorted
    (fun a b ha hb hab hba => leTariffLex_antisymm_on hne a (List.mem_mergeSort.mp ha)
      b (List.mem_mergeSort.mp hb) hab hba)
    (mergeSort_rate_pairwise_lex h)
    (List.sorted_mergeSort leTariffLex_trans leTariffLex_total l)
    ((List.mergeSort_perm l leTariffRate).trans (List.mergeSort_perm l leTariffLex).symm)

/-- Closed-instance evaluator for `mergeSort`: the unique list that is a
permutation of the input and sorted, with antisymmetry between members. -/
theorem mergeSort_eq_of_perm_sorted {α : Type} (le : α → α → Bool)
    (htrans : ∀ a b c, le a b → le b c → le a c)
    (htotal : ∀ a b, le a b || le b a)
    (l L : List α)
    (hanti : ∀ a ∈ l, ∀ b ∈ L, le a b → le b a → a = b)
    (hperm : l ~ L) (hs : L.Pairwise (le · ·)) :
    l.mergeSort le = L :=
  List.Perm.eq_of_sorted (fun a b ha hb => hanti a (List.mem_mergeSort.mp ha) b hb)
    (List.sorted_mergeSort htrans htotal l) hs ((List.mergeSort_perm l le).trans hperm)

/-- The literal scenario of §8: four half-hour local rows at 10:00@8p,
10:30@30p, 11:00@6p and 11:30@7p (instants in minutes). -/
def exampleRates : List TariffRow :=
  [⟨600, 630, 8⟩, ⟨630, 660, 30⟩, ⟨660, 690, 6⟩, ⟨690, 720, 7⟩]

/-- C5: on tariff rows with pairwise distinct starts (half-hour windows),
the planner pipeline — sort by start, drop rows ending at or before now,
stable-select the cheapest `slots_count`, sort the pick by start — equals
the spec selection (lowest rate, ties to the earlier start, output in start
order); on the literal §8 rows with two slots needed it picks exactly the
6p and the 7p row, in start order. -/
theorem select_cheapest_matches_spec :
    (∀ (rows : List TariffRow) (slots_count now : Nat),
      (rows.Pairwise fun a b => a.start ≠ b.start) →
      select_cheapest_upcoming_slots (parse_rates_to_local rows) slots_count now
        = spec_cheapest_slots rows slots_count now)
    ∧ select_cheapest_upcoming_slots (parse_rates_to_local exampleRates) 2 0
        = [⟨660, 690, 6⟩, ⟨690, 720, 7⟩] := by
  constructor
  · intro rows slots_count now h
    unfold select_cheapest_upcoming_slots parse_rates_to_local spec_cheapest_slots
    set p := fun r : TariffRow => decide (now < r.stop) with hp
    have hsorted : (rows.mergeSort leTariffStart).Pairwise (leTariffStart · ·) :=
      List.sorted_mergeSort leTariffStart_trans leTariffStart_total rows
    have hne2 : (rows.mergeSort leTariffStart).Pairwise fun a b => a.start ≠ b.start :=
      ((List.mergeSort_perm rows leTariffStart).pairwise_iff
        (fun {x y} hxy => Ne.symm hxy)).mpr h
    have hstrict : (rows.mergeSort leTariffStart).Pairwise fun a b => a.start < b.start :=
      (hsorted.and hne2).imp fun hab =>
        lt_of_le_of_ne (by simpa [leTariffStart] using hab.1) hab.2
    have hstr_fc : ((rows.mergeSort leTariffStart).filter p).Pairwise
        fun a b => a.start < b.start := hstrict.filter p
    have hperm : (rows.mergeSort leTariffStart).filter p ~ rows.filter p :=
      (List.mergeSort_perm rows leTariffStart).filter p
    by_cases hemp : ((rows.mergeSort leTariffStart).filter p).isEmpty
    · rw [if_pos hemp]
      have h1 : (rows.mergeSort leTariffStart).filter p = [] := List.isEmpty_iff.mp hemp
      rw [h1] at hperm
      have h2 : rows.filter p = [] := List.perm_nil.mp hperm.symm
      rw [h2]
      simp
    · rw [if_neg hemp]
      rw [mergeSort_rate_eq_lex hstr_fc]
      have heq : ((rows.mergeSort leTariffStart).filter p).mergeSort leTariffLex
          = (rows.filter p).mergeSort leTariffLex := by
        refine List.Perm.eq_of_sorted ?_
          (List.sorted_mergeSort leTariffLex_trans leTariffLex_total _)
          (List.sorted_mergeSort leTariffLex_trans leTariffLex_total _)
          (((List.mergeSort_perm _ leTariffLex).trans hperm).trans
            (List.mergeSort_perm _ leTariffLex).symm)
        intro a b ha hb hab hba
        have ha2 : a ∈ rows := List.mem_mergeSort.mp
          ((List.mem_filter.mp (List.mem_mergeSort.mp ha)).1)
        have hb2 : b ∈ rows := (List.mem_filter.mp (List.mem_mergeSort.mp hb)).1
        exact leTariffLex_antisymm_on h a ha2 b hb2 hab hba
      rw [heq]
  · have h1 : parse_rates_to_local exampleRates = exampleRates :=
      List.mergeSort_of_sorted (by decide)
    rw [h1]
    have h2 : exampleRates.filter (fun r => decide ((0 : Nat) < r.stop)) = exampleRates :=
      rfl
    have h3 : exampleRates.mergeSort leTariffRate
        = [⟨660, 690, 6⟩, ⟨690, 720, 7⟩, ⟨600, 630, 8⟩, ⟨630, 660, 30⟩] :=
      mergeSort_eq_of_perm_sorted leTariffRate leTariffRate_trans leTariffRate_total
        _ _ (by decide) (by decide) (by decide)
    have h4 : ([⟨660, 690, 6⟩, ⟨690, 720, 7⟩] : List TariffRow).mergeSort leTariffStart
        = [⟨660, 690, 6⟩, ⟨690, 720, 7⟩] :=
      List.mergeSort_of_sorted (by decide)
    simp only [select_cheapest_upcoming_slots, h2, h3]
    simpa using h4

/-- Witness for `select_cheapest_matches_spec` at the literal §8 rows. -/
theorem select_cheapest_matches_spec_witness :
    (exampleRates.Pairwise fun a b => a.start ≠ b.start)
    ∧ select_cheapest_upcoming_slots (parse_rates_to_local exampleRates) 2 0
        = spec_cheapest_slots exampleRates 2 0 :=
  ⟨by decide, select_cheapest_matches_spec.1 exampleRates 2 0 (by decide)⟩

/-! Solar forecast client (`src/src/SolarData.py`). -/

/-- One 15-minute sample of the cached solar forecast: UTC instant (in
seconds) and tilted global irradiance (W/m²). -/
structure SolarSample where
  timestamp : Nat
  global_irradiance : ℚ
deriving DecidableEq

/-- PV-array configuration constants used by `get_forecast_for_window`:
panel count, nominal and STC wattage, reference irradiance, derating
factor. -/
structure PVConfig where
  num_panels : ℚ
  nominal_wattage : ℚ
  sotc_wattage : ℚ
  nominal_irradiance : ℚ
  derating_factor : ℚ
deriving DecidableEq

/-- Failures of the forecast cache read; a missing cache file raises
`FileNotFoundError`. -/
inductive SolarErr where
  | fileNotFound
deriving DecidableEq

/-- Per-sample PV power in kW:
`min(N·P_nominal · G/G_ref · derating, N·P_stc) / 1000`. -/
def pv_power_kw (cfg : PVConfig) (G : ℚ) : ℚ :=
  min (cfg.num_panels * cfg.nominal_wattage * (G / cfg.nominal_irradiance)
      * cfg.derating_factor)
    (cfg.num_panels * cfg.sotc_wattage) / 1000

/-- `get_forecast_for_window(start, end)`: raises when the weather cache
file is missing (`cache = none`); otherwise keeps the samples with
`start ≤ t < end` and annotates each with its PV power (the source skips
the annotation on an empty window, observationally the same). -/
def get_forecast_for_window (cfg : PVConfig) (cache : Option (List SolarSample))
    (start_ts end_ts : Nat) : Except SolarErr (List (SolarSample × ℚ)) :=
  match cache with
  | none => .error .fileNotFound
  | some data =>
    let window := data.filter fun s =>
      decide (start_ts ≤ s.timestamp) && decide (s.timestamp < end_ts)
    .ok (window.map fun s => (s, pv_power_kw cfg s.global_irradiance))

/-- `hasEnoughSolar(start, end, target_energy_kwh)`: false on an empty
window, else compare mean PV power times the window length in hours with
the target.  An error from the cache read propagates — the function
installs no handler. -/
def hasEnoughSolar (cfg : PVConfig) (cache : Option (List SolarSample))
    (start_ts end_ts : Nat) (target_energy_kwh : ℚ) : Except SolarErr Bool :=
  match get_forecast_for_window cfg cache start_ts end_ts with
  | .error e => .error e
  | .ok fc =>
    if fc.isEmpty then .ok false
    else
      let avg_power_kw := (fc.map fun s => s.2).sum / fc.length
      let duration_h := ((end_ts : ℚ) - start_ts) / 3600
      .ok (decide (target_energy_kwh ≤ avg_power_kw * duration_h))

/-! Executor (`src/main.py`, `process_schedule_row` and helpers). -/

/-- Decision reasons written by the executor; payload-carrying
constructors embed the values interpolated into the reason strings. -/
inductive Reason where
  | bad_datetime
  | off_grid
  | saving_sessions
  | peak_window
  | soc_high (soc : ℚ)
  | price_high (price limit : ℚ)
  | enough_solar
  | successful
  | system_error
deriving DecidableEq

/-- The battery live status the executor reads (`get_battery_status`). -/
structure BatteryStatus where
  percentage_charged : ℚ
  island_status : String
  solar_power : ℚ
  grid_charging : Bool
deriving DecidableEq

/-- Executor configuration (`config/config.py` with the `or`-defaults of
`main.py`): the peak window in local minutes-of-day, thresholds and
reserves. -/
structure ExecConfig where
  peak_start : Nat
  peak_end : Nat
  soc_skip_threshold : ℚ
  max_agile_price : ℚ
  battery_reserve_start : ℚ
  battery_reserve_end : ℚ
deriving DecidableEq

/-- Python's `str.lower()`, per-character (exact on the ASCII statuses the
battery API returns). -/
def pyLower (s : String) : String :=
  ⟨s.data.map Char.toLower⟩

/-- `in_peak_window(dt)`: `PEAK_START ≤ dt.time() < PEAK_END`, with local
instants as minutes and the time of day as `dt % 1440`. -/
def in_peak_window (cfg : ExecConfig) (dt : Nat) : Bool :=
  decide (cfg.peak_start ≤ dt % 1440) && decide (dt % 1440 < cfg.peak_end)

/-- `is_in_saving_session(schedule_start, schedule_end, sessions)`: true
iff the schedule window overlaps any ongoing session interval. -/
def is_in_saving_session (schedule_start schedule_end : Nat)
    (sessions : List (Nat × Nat)) : Bool :=
  sessions.any fun s => decide (schedule_start < s.2) && decide (s.1 < schedule_end)

/-- Python's `fetched or stored` on an optional price (`main.py:255`):
`None` and the float `0.0` are both falsy, so the stored price replaces
them; any other fetched value is kept. -/
def py_or_price (fetched : Option ℚ) (stored : ℚ) : ℚ :=
  match fetched with
  | some p => if p = 0 then stored else p
  | none => stored

/-- The schedule-row fields `process_schedule_row` reads; `none` start or
end stands for an ISO string `datetime.fromisoformat` rejects. -/
structure ExecRow where
  id : Nat
  start_time : Option Nat
  end_time : Option Nat
  manual_override : Bool
  target_soc : ℚ
deriving DecidableEq

deriving instance DecidableEq for Except

/-- The environment one `process_schedule_row` call observes: the
saving-session load, the battery read, the clock, the tariff fetch, the
stored price, the solar check outcome (`.error` models a raised
exception), the chained next schedule, and whether the charging block
raises. -/
structure ExecEnv where
  cfg : ExecConfig
  octo_ok : Bool
  saving_sessions : List (Nat × Nat)
  battery : Option BatteryStatus
  now_local : Nat
  fetched_price : Option ℚ
  stored_price : ℚ
  solar : Except Unit Bool
  now_at_charge : Nat
  next_schedule : Option Nat
  charge_raises : Bool
deriving DecidableEq

/-- The observable effects of one `process_schedule_row` call: decisions
appended (action, reason), `mark_as_executed` labels, `set_charge`
commands (reserve, grid_charging), and the computed `current_price` when
the run reaches that point. -/
structure ProcResult where
  decisions : List (String × Reason)
  marks : List String
  set_charge_calls : List (ℚ × Bool)
  current_price : Option ℚ
deriving DecidableEq

/-- The charging block of `process_schedule_row` (`main.py:302-356`):
choose the reserve (`target_soc` for a manual override, else
`BATTERY_RESERVE_START` below it, `SOC_SKIP_THRESHOLD` above), start grid
charging; a raised exception forces a safe stop and `aborted`; a
non-positive remaining duration marks `expired`; otherwise the heartbeat
loop ends in `completed`, and the stop command is elided when a chained
schedule follows within the lookahead. -/
def charge_phase (row : ExecRow) (env : ExecEnv) (end_dt : Nat)
    (soc current_price : ℚ) : ProcResult :=
  let reserve_value := if row.manual_override then row.target_soc
    else if soc < env.cfg.battery_reserve_start then env.cfg.battery_reserve_start
    else env.cfg.soc_skip_threshold
  if env.charge_raises then
    ⟨[("aborted", .system_error)], ["aborted"],
      [(reserve_value, true), (env.cfg.battery_reserve_end, false)],
      some current_price⟩
  else if end_dt ≤ env.now_at_charge then
    ⟨[], ["expired"], [(reserve_value, true)], some current_price⟩
  else
    match env.next_schedule with
    | some _ =>
      ⟨[("completed", .successful)], ["completed"],
        [(reserve_value, true)], some current_price⟩
    | none =>
      ⟨[("completed", .successful)], ["completed"],
        [(reserve_value, true), (env.cfg.battery_reserve_end, false)],
        some current_price⟩

/-- The solar check of `process_schedule_row` (`main.py:287-300`): when
`hasEnoughSolar` returns true, stop grid charging and cancel with
`Forecasted enough Solar`; on false or on a raised exception fall through
to grid charging.  This check is not guarded by `manual_override`. -/
def solar_phase (row : ExecRow) (env : ExecEnv) (end_dt : Nat)
    (soc current_price : ℚ) : ProcResult :=
  match env.solar with
  | .ok true =>
    ⟨[("cancelled", .enough_solar)], ["cancelled"],
      [(env.cfg.battery_reserve_end, false)], some current_price⟩
  | _ => charge_phase row env end_dt soc current_price

/-- The cancel gates of `process_schedule_row` (`main.py:253-300`):
compute `current_price = fetched or stored`; cancel on a peak-window
overlap or a high SoC (both unconditional), cancel on a high price only
when `manual_override` is unset, then run the solar check. -/
def gates_phase (row : ExecRow) (env : ExecEnv) (start_dt end_dt : Nat)
    (soc : ℚ) : ProcResult :=
  let current_price := py_or_price env.fetched_price env.stored_price
  if in_peak_window env.cfg start_dt || in_peak_window env.cfg end_dt then
    ⟨[("cancelled", .peak_window)], ["cancelled"], [], some current_price⟩
  else if env.cfg.soc_skip_threshold ≤ soc then
    ⟨[("cancelled", .soc_high soc)], ["cancelled"], [], some current_price⟩
  else if !row.manual_override && decide (env.cfg.max_agile_price < current_price) then
    ⟨[("cancelled", .price_high current_price env.cfg.max_agile_price)],
      ["cancelled"], [], some current_price⟩
  else solar_phase row env end_dt soc current_price

/-- `process_schedule_row(row, now)` (`src/main.py:181`), gate for gate:
unparseable times mark "cancelled" and write an `error:bad_datetime`
decision; a failed battery read returns without terminalising; an
`off_grid` island or an overlapping saving session cancels (sessions are
absent when their load failed); a not-yet-started row waits; the remaining
gates and the charging block are `gates_phase`, `solar_phase` and
`charge_phase`. -/
def process_schedule_row (row : ExecRow) (env : ExecEnv) : ProcResult :=
  match row.start_time, row.end_time with
  | some start_dt, some end_dt =>
    match env.battery with
    | none => ⟨[], [], [], none⟩
    | some status =>
      let soc := status.percentage_charged
      if (pyLower status.island_status).startsWith "off_grid" then
        ⟨[("cancelled", .off_grid)], ["cancelled"], [], none⟩
      else if env.octo_ok && !env.saving_sessions.isEmpty
          && is_in_saving_session start_dt end_dt env.saving_sessions then
        ⟨[("cancelled", .saving_sessions)], ["cancelled"], [], none⟩
      else if env.now_local < start_dt then
        ⟨[], [], [], none⟩
      else gates_phase row env start_dt end_dt soc
  | _, _ => ⟨[("error", .bad_datetime)], ["cancelled"], [], none⟩

/-! Theorems about the solar client and the executor. -/

/-- A concrete PV configuration (panel count, wattages, reference
irradiance, derating). -/
def pvCfg0 : PVConfig := ⟨10, 400, 430, 1000, 9 / 10⟩

/-- C8 counterexample: with the weather cache file missing,
`hasEnoughSolar` raises `FileNotFoundError` instead of returning false. -/
theorem hasEnoughSolar_missing_cache_raises :
    hasEnoughSolar pvCfg0 none 0 1800 1 = .error .fileNotFound
    ∧ hasEnoughSolar pvCfg0 none 0 1800 1 ≠ .ok false := by
  decide

/-- Concrete executor configuration: peak 16:00–19:00 local, SoC skip 90,
price cap 22 p/kWh, reserves 80/20. -/
def execCfg0 : ExecConfig := ⟨960, 1140, 90, 22, 80, 20⟩

/-- On-grid battery at 40% used by the concrete executor runs. -/
def batteryOk : BatteryStatus := ⟨40, "on_grid", 0, true⟩

/-- Environment whose solar check returns true: schedule due now, on-grid,
cheap price, no sessions. -/
def solarEnv : ExecEnv :=
  ⟨execCfg0, true, [], some batteryOk, 600, some 5, 10, .ok true, 601, none, false⟩

/-- A non-manual row in the 10:00–10:30 slot. -/
def solarRow : ExecRow := ⟨3, some 600, some 630, false, 0⟩

/-- A decision whose reason is not `Forecasted enough Solar`. -/
def not_solar_reason (d : String × Reason) : Bool :=
  !decide (d.2 = Reason.enough_solar)

/-- The charging block never writes a solar-cancel decision. -/
theorem charge_phase_no_solar (row : ExecRow) (env : ExecEnv) (end_dt : Nat)
    (soc current_price : ℚ) :
    ((charge_phase row env end_dt soc current_price).decisions.all not_solar_reason)
      = true := by
  simp only [charge_phase]
  repeat' split
  all_goals rfl

/-- The solar check cancels with `Forecasted enough Solar` only when the
check returned true. -/
theorem solar_phase_no_solar (row : ExecRow) (env : ExecEnv) (end_dt : Nat)
    (soc current_price : ℚ) (h : env.solar ≠ .ok true) :
    ((solar_phase row env end_dt soc current_price).decisions.all not_solar_reason)
      = true := by
  rcases hsol : env.solar with e | b
  · simp only [solar_phase, hsol]
    exact charge_phase_no_solar row env end_dt soc current_price
  · rcases b with _ | _
    · simp only [solar_phase, hsol]
      exact charge_phase_no_solar row env end_dt soc current_price
    · exact absurd hsol h

/-- The cancel gates write a solar-cancel decision only when the solar
check returned true. -/
theorem gates_phase_no_solar (row : ExecRow) (env : ExecEnv) (start_dt end_dt : Nat)
    (soc : ℚ) (h : env.solar ≠ .ok true) :
    ((gates_phase row env start_dt end_dt soc).decisions.all not_solar_reason)
      = true := by
  simp only [gates_phase]
  repeat' split
  all_goals first
    | rfl
    | exact solar_phase_no_solar row env end_dt soc _ h

/-- The executor cancels with `Forecasted enough Solar` only when the solar
check returned true: with any other outcome (false or a raised error) every
decision the call writes carries a different reason. -/
theorem no_solar_cancel_without_ok (row : ExecRow) (env : ExecEnv)
    (h : env.solar ≠ .ok true) :
    ((process_schedule_row row env).decisions.all not_solar_reason) = true := by
  simp only [process_schedule_row]
  repeat' split
  all_goals first
    | rfl
    | exact gates_phase_no_solar row env _ _ _ h

/-- C8 amended: `hasEnoughSolar` raises on a missing cache (the executor's
caller catches it and proceeds to grid charging), returns false on an empty
forecast window, and the executor writes the `Forecasted enough Solar`
cancellation only when the solar check actually returned true — never on an
error. -/
theorem hasEnoughSolar_error_contract :
    (∀ (cfg : PVConfig) (s e : Nat) (t : ℚ),
        hasEnoughSolar cfg none s e t = .error .fileNotFound)
    ∧ (∀ (cfg : PVConfig) (data : List SolarSample) (s e : Nat) (t : ℚ),
        (data.filter fun smp =>
          decide (s ≤ smp.timestamp) && decide (smp.timestamp < e)) = [] →
        hasEnoughSolar cfg (some data) s e t = .ok false)
    ∧ (∀ (row : ExecRow) (env : ExecEnv),
        ("cancelled", Reason.enough_solar) ∈ (process_schedule_row row env).decisions →
        env.solar = .ok true) := by
  refine ⟨fun cfg s e t => rfl, ?_, ?_⟩
  · intro cfg data s e t h
    simp [hasEnoughSolar, get_forecast_for_window, h]
  · intro row env hmem
    by_contra hne
    have hall := no_solar_cancel_without_ok row env hne
    rw [List.all_eq_true] at hall
    have h2 := hall _ hmem
    simp [not_solar_reason] at h2

/-- Witness for `hasEnoughSolar_error_contract` at concrete inputs. -/
theorem hasEnoughSolar_error_contract_witness :
    hasEnoughSolar pvCfg0 none 0 1800 1 = .error .fileNotFound
    ∧ hasEnoughSolar pvCfg0 (some []) 0 1800 1 = .ok false
    ∧ solarEnv.solar = .ok true :=
  ⟨hasEnoughSolar_error_contract.1 pvCfg0 0 1800 1,
   hasEnoughSolar_error_contract.2.1 pvCfg0 [] 0 1800 1 rfl,
   hasEnoughSolar_error_contract.2.2 solarRow solarEnv (by decide)⟩

/-- Manual-override row in the 17:00–17:30 peak slot. -/
def manualPeakRow : ExecRow := ⟨1, some 1020, some 1050, true, 100⟩

/-- Environment for the peak run: due now, on-grid, cheap price, solar
insufficient. -/
def peakEnv : ExecEnv :=
  ⟨execCfg0, true, [], some batteryOk, 1020, some 5, 10, .ok false, 1021, none, false⟩

/-- Manual-override row in the off-peak 10:00–10:30 slot. -/
def manualSolarRow : ExecRow := ⟨2, some 600, some 630, true, 100⟩

/-- C1: the peak-window cancel (`main.py:261`) and the sufficient-solar
cancel (`main.py:289`) sit outside the `if not manual_override:` block that
guards only the price rule, so a manual-override row in the peak window is
cancelled `peak_window`, and one with a sufficient solar forecast is
cancelled `Forecasted enough Solar` — against the documented contract that
a manual override bypasses the price, peak and solar gates. -/
theorem manual_override_not_exempt :
    (process_schedule_row manualPeakRow peakEnv).decisions
        = [("cancelled", .peak_window)]
    ∧ manualPeakRow.manual_override = true
    ∧ (process_schedule_row manualSolarRow solarEnv).decisions
        = [("cancelled", .enough_solar)]
    ∧ manualSolarRow.manual_override = true := by
  decide

/-- Non-manual row used for the zero-price run. -/
def zeroPriceRow : ExecRow := ⟨4, some 600, some 630, false, 0⟩

/-- Environment whose tariff fetch succeeds with the value 0.0 p/kWh while
the stored price is 20. -/
def zeroPriceEnv : ExecEnv :=
  ⟨execCfg0, true, [], some batteryOk, 600, some 0, 20, .ok false, 601, none, false⟩

/-- C6 counterexample: a successfully fetched rate of 0.0 p/kWh is falsy
for Python's `or`, so the executor replaces it with the stored price. -/
theorem fetched_zero_price_replaced :
    zeroPriceEnv.fetched_price = some 0
    ∧ zeroPriceEnv.stored_price = 20
    ∧ (process_schedule_row zeroPriceRow zeroPriceEnv).current_price = some 20
    ∧ (20 : ℚ) ≠ 0 := by
  decide

/-- The charging block reports the `current_price` it was given. -/
theorem charge_phase_price (row : ExecRow) (env : ExecEnv) (end_dt : Nat)
    (soc current_price : ℚ) :
    (charge_phase row env end_dt soc current_price).current_price
      = some current_price := by
  simp only [charge_phase]
  repeat' split
  all_goals rfl

/-- The solar check reports the `current_price` it was given. -/
theorem solar_phase_price (row : ExecRow) (env : ExecEnv) (end_dt : Nat)
    (soc current_price : ℚ) :
    (solar_phase row env end_dt soc current_price).current_price
      = some current_price := by
  rcases hsol : env.solar with e | b
  · simp only [solar_phase, hsol]
    exact charge_phase_price row env end_dt soc current_price
  · rcases b with _ | _
    · simp only [solar_phase, hsol]
      exact charge_phase_price row env end_dt soc current_price
    · simp only [solar_phase, hsol]

/-- The cancel gates always report `fetched or stored` as the current
price. -/
theorem gates_phase_price (row : ExecRow) (env : ExecEnv) (start_dt end_dt : Nat)
    (soc : ℚ) :
    (gates_phase row env start_dt end_dt soc).current_price
      = some (py_or_price env.fetched_price env.stored_price) := by
  simp only [gates_phase]
  repeat' split
  all_goals first
    | rfl
    | exact solar_phase_price row env end_dt soc _

/-- C6 amended: `current_price` is the fetched rate whenever the fetch
returns a non-null, non-zero value; the stored price is substituted when
the fetch returns null or exactly 0.0; and every `current_price` the
executor records equals this `fetched or stored` combination. -/
theorem current_price_fallback (fetched : Option ℚ) (stored : ℚ) :
    (∀ p : ℚ, fetched = some p → p ≠ 0 → py_or_price fetched stored = p)
    ∧ (fetched = none ∨ fetched = some 0 → py_or_price fetched stored = stored)
    ∧ ∀ (row : ExecRow) (env : ExecEnv),
        (process_schedule_row row env).current_price = none
        ∨ (process_schedule_row row env).current_price
            = some (py_or_price env.fetched_price env.stored_price) := by
  refine ⟨?_, ?_, ?_⟩
  · rintro p rfl hp
    simp [py_or_price, hp]
  · rintro (rfl | rfl) <;> simp [py_or_price]
  · intro row env
    simp only [process_schedule_row]
    repeat' split
    all_goals first
      | (left; rfl)
      | (right; exact gates_phase_price row env _ _ _)

/-- Witness for `current_price_fallback` at concrete inputs. -/
theorem current_price_fallback_witness :
    py_or_price (some 5) 20 = 5
    ∧ py_or_price none 20 = 20
    ∧ ((process_schedule_row zeroPriceRow zeroPriceEnv).current_price = none
        ∨ (process_schedule_row zeroPriceRow zeroPriceEnv).current_price
            = some (py_or_price zeroPriceEnv.fetched_price zeroPriceEnv.stored_price)) :=
  ⟨(current_price_fallback (some 5) 20).1 5 rfl (by norm_num),
   (current_price_fallback none 20).2.1 (Or.inl rfl),
   (current_price_fallback zeroPriceEnv.fetched_price zeroPriceEnv.stored_price).2.2
     zeroPriceRow zeroPriceEnv⟩

end SBS
